import Mathlib

/-!
Shallow embedding of `Plane_nd.py` (dwillcox/ND-Tile): an n-dimensional
affine-plane least-squares fitter.  Scalars are modelled as `ℚ` (the source
uses machine floats; the algebraic structure of every claim is rational),
except the returned standard errors, which involve a square root and are
modelled in `ℝ`.  The external scipy solver `leastsq` is modelled as an
abstract function from the initial-guess vector to a solver output record.
-/

/-- The fitter object: state captured by `Plane_nd.__init__` (lines 58-64).
`ivals` is the ordered sequence of independent-variable points (each a
`dm`-vector), `dvals` the parallel dependent values, `dm` the dimension. -/
structure Plane_nd where
  ivals : List (List ℚ)
  dvals : List ℚ
  dm : ℕ
deriving DecidableEq

/-- Index of the first occurrence of the maximum of a list
(`numpy.argmax`: ties broken by the first occurrence, lines 107-108).
On the empty list (where numpy raises) we return 0. -/
def argmaxIdx : List ℚ → ℕ
  | [] => 0
  | [_] => 0
  | a :: b :: t =>
      if (b :: t).getD (argmaxIdx (b :: t)) 0 > a then argmaxIdx (b :: t) + 1 else 0

/-- Index of the first occurrence of the minimum of a list
(`numpy.argmin`: ties broken by the first occurrence, lines 112-113). -/
def argminIdx : List ℚ → ℕ
  | [] => 0
  | [_] => 0
  | a :: b :: t =>
      if (b :: t).getD (argminIdx (b :: t)) 0 < a then argminIdx (b :: t) + 1 else 0

namespace Plane_nd

/-- `self.npars = self.dm + 1` (line 62). -/
def npars (p : Plane_nd) : ℕ := p.dm + 1

/-- `self.npts = len(self.dvals)` (line 63). -/
def npts (p : Plane_nd) : ℕ := p.dvals.length

/-- `self.ndf = self.npts - self.npars` (line 64); Python `int` subtraction,
so the value may be negative: modelled in `ℤ`. -/
def ndf (p : Plane_nd) : ℤ := (p.npts : ℤ) - (p.npars : ℤ)

/-- `zcoord` (lines 66-74): the padded coordinate vector
`z[0] = 1.0`, `z[1:npars] = x[0:dm]`. -/
def zcoord (p : Plane_nd) (x : List ℚ) : List ℚ :=
  1 :: x.take p.dm

/-- `fplane` (lines 76-79): `np.sum(z * cpars)`, the dot product of the
padded coordinate vector with the parameter vector. -/
def fplane (p : Plane_nd) (x : List ℚ) (cpars : List ℚ) : ℚ :=
  (List.zipWith (· * ·) (p.zcoord x) cpars).sum

/-- `objfun` (lines 81-85): the residual vector
`[dv - fplane(iv, pars) for dv, iv in zip(dvals, ivals)]`. -/
def objfun (p : Plane_nd) (pars : List ℚ) : List ℚ :=
  List.zipWith (fun dv iv => dv - p.fplane iv pars) p.dvals p.ivals

/-- `objjac` (lines 87-92): the Jacobian matrix
`[-zcoord(iv) for iv in ivals]`.  The `pars` argument is taken by the source
function and never read. -/
def objjac (p : Plane_nd) (pars : List ℚ) : List (List ℚ) :=
  let _ := pars
  p.ivals.map (fun iv => (p.zcoord iv).map (fun a => -a))

/-- Column `j` of the independent values: `np.transpose(self.ivals)[j]`
(line 103; the loop reads `ivt[i-1]`, line 105). -/
def colI (p : Plane_nd) (j : ℕ) : List ℚ :=
  p.ivals.map (fun iv => iv.getD j 0)

/-- `np.average(self.dvals)` (line 100): the arithmetic mean. -/
def dvalsMean (p : Plane_nd) : ℚ :=
  p.dvals.sum / (p.dvals.length : ℚ)

/-- `iave` (line 102): index of the dependent value closest to the mean.
Computed by the source and never used afterwards; kept for faithfulness. -/
def iave (p : Plane_nd) : ℕ :=
  argminIdx (p.dvals.map (fun d => |d - p.dvalsMean|))

/-- The denominator `iv_max - iv_min` of the slope estimate for 0-based
axis `j` (loop index `i = j+1`, lines 107-117). -/
def slopeDenom (p : Plane_nd) (j : ℕ) : ℚ :=
  let c := p.colI j
  c.getD (argmaxIdx c) 0 - c.getD (argminIdx c) 0

/-- The slope estimate `xini[j+1] = (dv_max - dv_min)/(iv_max - iv_min)/dm`
for 0-based axis `j` (lines 104-117). -/
def slopeEstimate (p : Plane_nd) (j : ℕ) : ℚ :=
  let c := p.colI j
  (p.dvals.getD (argmaxIdx c) 0 - p.dvals.getD (argminIdx c) 0) / p.slopeDenom j / (p.dm : ℚ)

/-- The heuristic initial guess built when no guess is supplied
(lines 99-117): `xini[0]` is the mean of the dependent values and
`xini[i] = slopeEstimate (i-1)` for `i` in `1..dm`. -/
def heuristicGuess (p : Plane_nd) : List ℚ :=
  p.dvalsMean :: (List.range p.dm).map (fun j => p.slopeEstimate j)

/-- The initial-value vector `xini` passed to the solver (lines 95-117):
`if list(guess):` — a nonempty guess is used verbatim (`np.copy`),
an empty (falsy) guess triggers the heuristic construction. -/
def xiniOf (p : Plane_nd) (guess : List ℚ) : List ℚ :=
  if guess = [] then p.heuristicGuess else guess

end Plane_nd

/-- Output of the external solver `scipy.optimize.leastsq` with
`full_output=True` (line 118): the optimized parameters `popt` and the
covariance proxy `pcov`, which is `None` (here `none`) when the underlying
matrix is singular.  The remaining outputs (`idict`, `mesg`, `ierr`) only
feed the optional printing path and are not modelled. -/
structure SolverOutput where
  popt : List ℚ
  pcov : Option (List (List ℚ))
deriving DecidableEq

namespace Plane_nd

/-- The parameter-error computation of `dolsq` (lines 120-130):
residuals are recomputed at `popt` (line 123); if `ndf > 0` and the
covariance proxy is present, `perr = sqrt(diag(pcov * resd_var))` with
`resd_var = sum(resd**2)/ndf`; otherwise `perr = [None]*npars`.
`none` models Python `None`, the explicit undefined marker. -/
noncomputable def dolsqErrors (p : Plane_nd) (popt : List ℚ)
    (pcov : Option (List (List ℚ))) : List (Option ℝ) :=
  let resd := p.objfun popt
  if p.ndf > 0 ∧ pcov ≠ none then
    let resd_var := (resd.map (fun r => r ^ 2)).sum / (p.ndf : ℚ)
    let M := pcov.getD []
    let pcovariance := M.map (fun row => row.map (fun a => a * resd_var))
    (List.range p.npars).map
      (fun i => some (Real.sqrt ((((pcovariance.getD i []).getD i 0 : ℚ) : ℝ))))
  else
    List.replicate p.npars (none : Option ℝ)

/-- `dolsq` (lines 94-138), with the external solver abstracted as a
function from the initial vector to a `SolverOutput`: build `xini`, call
the solver on it, and return `(popt, perr)`.  The `do_print` branch is
purely observational (prints only) and is not modelled. -/
noncomputable def dolsq (p : Plane_nd) (solver : List ℚ → SolverOutput)
    (guess : List ℚ := []) : List ℚ × List (Option ℝ) :=
  let xini := p.xiniOf guess
  let out := solver xini
  (out.popt, p.dolsqErrors out.popt out.pcov)

/-- `dolsq` invoked with the guess argument omitted, i.e. through the
Python default `guess=[]` (line 94). -/
noncomputable def dolsqNoGuess (p : Plane_nd) (solver : List ℚ → SolverOutput) :
    List ℚ × List (Option ℝ) :=
  p.dolsq solver

/-- Modelled from the spec: the input validation performed by the external
least-squares solver, which is not part of this repository.  Per the solver
contract (spec §6) the Jacobian function must map a parameter vector of
length `len(xini)` to an N×`len(xini)` matrix; `objjac` always produces
rows of length `npars`, so the solver's shape validation rejects any
initial vector whose length differs from `npars`, raising before any
optimization step (spec §7: "fails fast, signaled to the caller"). -/
def leastsqShapeCheck (p : Plane_nd) (xini : List ℚ) : Except String Unit :=
  if xini.length = p.npars then Except.ok ()
  else Except.error "mismatch between the input and output shape of objjac"

/-- `dolsq` with the external solver's shape validation made explicit:
the validation runs inside the solver call (line 118), before the solve,
so a rejected initial vector yields an error and no fit result. -/
noncomputable def dolsqChecked (p : Plane_nd) (solver : List ℚ → SolverOutput)
    (guess : List ℚ) : Except String (List ℚ × List (Option ℝ)) :=
  let xini := p.xiniOf guess
  match p.leastsqShapeCheck xini with
  | Except.error e => Except.error e
  | Except.ok _ =>
      let out := solver xini
      Except.ok (out.popt, p.dolsqErrors out.popt out.pcov)

/-- Division as performed on machine floats, where a zero divisor yields a
non-finite value (`inf`/`nan`) rather than a number: `none` models the
non-finite outcome. -/
def fdiv (a b : ℚ) : Option ℚ :=
  if b = 0 then none else some (a / b)

/-- The slope estimate of lines 104-117 under the float-division model:
`none` signals that the unguarded division hit a zero denominator and the
stored entry is non-finite. -/
def slopeEstimateF (p : Plane_nd) (j : ℕ) : Option ℚ :=
  let c := p.colI j
  (fdiv (p.dvals.getD (argmaxIdx c) 0 - p.dvals.getD (argminIdx c) 0)
      (p.slopeDenom j)).bind (fun s => fdiv s (p.dm : ℚ))

/-- The heuristic initial guess under the float-division model
(lines 99-117): an entry is `none` exactly when its slope estimate
divided by zero. -/
def heuristicGuessF (p : Plane_nd) : List (Option ℚ) :=
  some p.dvalsMean :: (List.range p.dm).map (fun j => p.slopeEstimateF j)

/-- The method-call view of `dolsq` for frame reasoning: Python methods
receive the object state and may mutate it; the body of `dolsq`
(lines 94-138) contains no assignment to any `self` field, so the
post-state is the unchanged `p` together with the returned pair. -/
noncomputable def dolsqCall (p : Plane_nd) (solver : List ℚ → SolverOutput)
    (guess : List ℚ) : Plane_nd × (List ℚ × List (Option ℝ)) :=
  (p, p.dolsq solver guess)

end Plane_nd

/-- Spec-side predicate: `j` is the index of the first sample attaining the
maximum of `l` — `j` is in range, no entry exceeds `l[j]`, and every
earlier entry is strictly smaller. -/
def isFirstMaxIdx (l : List ℚ) (j : ℕ) : Prop :=
  j < l.length ∧ (∀ k, k < l.length → l.getD k 0 ≤ l.getD j 0) ∧
    (∀ k, k < j → l.getD k 0 < l.getD j 0)

/-- Spec-side predicate: `j` is the index of the first sample attaining the
minimum of `l`. -/
def isFirstMinIdx (l : List ℚ) (j : ℕ) : Prop :=
  j < l.length ∧ (∀ k, k < l.length → l.getD j 0 ≤ l.getD k 0) ∧
    (∀ k, k < j → l.getD j 0 < l.getD k 0)

/-- A concrete degenerate sample set: the single independent axis takes the
constant value 1 on all three samples, so that axis has zero span. -/
def degenFit : Plane_nd := ⟨[[1], [1], [1]], [2, 3, 4], 1⟩

/-- A concrete well-posed sample set: the exact line `y = 5 + 2x` sampled at
`x = 0, 1, 2` (the D=1 scenario of spec §8). -/
def exampleFit : Plane_nd := ⟨[[0], [1], [2]], [5, 7, 9], 1⟩

/-- A concrete solver stub used to instantiate theorems about `dolsq`:
returns the exact parameters of `exampleFit` and an identity covariance
proxy, for every initial guess. -/
def exampleSolver : List ℚ → SolverOutput :=
  fun _ => ⟨[5, 2], some [[1, 0], [0, 1]]⟩

/-- A concrete sample set with more axes than samples: N = 1, D = 2, so
`ndf = 1 - 3 < 0`. -/
def underdeterminedFit : Plane_nd := ⟨[[1, 2]], [3], 2⟩

section Lemmas

/-- `getD` of a mapped range evaluates the function at in-range indices. -/
theorem getD_map_range {α : Type} (f : ℕ → α) (n i : ℕ) (d : α) (h : i < n) :
    ((List.range n).map f).getD i d = f i := by
  rw [List.getD_eq_getElem?_getD]
  simp [List.getElem?_map, List.getElem?_range, h]

end Lemmas

/-- C5: for every vector `x` of length D, the padded coordinate vector
`zcoord x` has length D+1, entry 0 equal to 1.0, and entries 1..D equal to
`x[0..D-1]` elementwise. -/
theorem C5_zcoord_padding (p : Plane_nd) (x : List ℚ) (h : x.length = p.dm) :
    (p.zcoord x).length = p.dm + 1 ∧ (p.zcoord x).getD 0 0 = 1 ∧
      ∀ i, i < p.dm → (p.zcoord x).getD (i + 1) 0 = x.getD i 0 := by
  have hx : x.take p.dm = x := by rw [← h]; simp
  refine ⟨by simp [Plane_nd.zcoord, hx, h], rfl, ?_⟩
  intro i _
  simp [Plane_nd.zcoord, hx]

/-- Witness for C5 at the concrete input `x = [4]` on `exampleFit`. -/
theorem C5_zcoord_padding_witness :
    (exampleFit.zcoord [4]).length = exampleFit.dm + 1 ∧
      (exampleFit.zcoord [4]).getD 0 0 = 1 ∧
      ∀ i, i < exampleFit.dm → (exampleFit.zcoord [4]).getD (i + 1) 0 = [(4 : ℚ)].getD i 0 :=
  C5_zcoord_padding exampleFit [4] (by decide)

/-- C3: the residual vector has one entry per sample in input order, entry
`i` equals `dvals[i]` minus the model evaluation at `ivals[i]`, and the
model evaluation is the dot product of the padded coordinate vector with
the parameter vector. -/
theorem C3_objfun_residuals (p : Plane_nd) (pars : List ℚ) (i : ℕ)
    (h : p.ivals.length = p.dvals.length) (hi : i < p.dvals.length) :
    (p.objfun pars).length = p.dvals.length ∧
    (p.objfun pars).getD i 0 = p.dvals.getD i 0 - p.fplane (p.ivals.getD i []) pars ∧
    p.fplane (p.ivals.getD i []) pars =
      (List.zipWith (fun z c => z * c) (p.zcoord (p.ivals.getD i [])) pars).sum := by
  have hlen : (p.objfun pars).length = p.dvals.length := by
    simp [Plane_nd.objfun, List.length_zipWith, h]
  refine ⟨hlen, ?_, rfl⟩
  have hi2 : i < (p.objfun pars).length := hlen ▸ hi
  have hiv : i < p.ivals.length := h ▸ hi
  rw [List.getD_eq_getElem _ _ hi2]
  simp only [Plane_nd.objfun, List.getElem_zipWith]
  rw [List.getD_eq_getElem _ _ hi, List.getD_eq_getElem _ _ hiv]

/-- Witness for C3 at sample index 1 of `exampleFit` with parameters `[5, 2]`. -/
theorem C3_objfun_residuals_witness :
    (exampleFit.objfun [5, 2]).length = exampleFit.dvals.length ∧
    (exampleFit.objfun [5, 2]).getD 1 0 =
      exampleFit.dvals.getD 1 0 - exampleFit.fplane (exampleFit.ivals.getD 1 []) [5, 2] ∧
    exampleFit.fplane (exampleFit.ivals.getD 1 []) [5, 2] =
      (List.zipWith (fun z c => z * c) (exampleFit.zcoord (exampleFit.ivals.getD 1 [])) [5, 2]).sum :=
  C3_objfun_residuals exampleFit [5, 2] 1 (by decide) (by decide)

/-- C4: the Jacobian has one row per sample, row `i` is the negated padded
coordinate vector of sample `i` (of length D+1 for well-formed rows), and
the result does not depend on the parameter argument. -/
theorem C4_objjac_constant (p : Plane_nd) (pars pars' : List ℚ) (i : ℕ)
    (hwf : ∀ iv ∈ p.ivals, iv.length = p.dm) (hi : i < p.ivals.length) :
    (p.objjac pars).length = p.ivals.length ∧
    (p.objjac pars).getD i [] = (p.zcoord (p.ivals.getD i [])).map (fun a => -a) ∧
    ((p.objjac pars).getD i []).length = p.npars ∧
    p.objjac pars = p.objjac pars' := by
  have hlen : (p.objjac pars).length = p.ivals.length := by simp [Plane_nd.objjac]
  have hi2 : i < (p.objjac pars).length := hlen ▸ hi
  have hrow : (p.objjac pars).getD i [] = (p.zcoord (p.ivals.getD i [])).map (fun a => -a) := by
    rw [List.getD_eq_getElem _ _ hi2]
    simp only [Plane_nd.objjac, List.getElem_map]
    rw [List.getD_eq_getElem _ _ hi]
  refine ⟨hlen, hrow, ?_, rfl⟩
  have hmem : p.ivals.getD i [] ∈ p.ivals := by
    rw [List.getD_eq_getElem _ _ hi]
    exact List.getElem_mem hi
  have hxlen : (p.ivals.getD i []).length = p.dm := hwf _ hmem
  rw [hrow]
  generalize hx : p.ivals.getD i [] = x at hxlen
  simp [Plane_nd.zcoord, Plane_nd.npars, hxlen]

/-- Witness for C4 at row 2 of `exampleFit`, comparing parameter vectors
`[5, 2]` and `[0, 0]`. -/
theorem C4_objjac_constant_witness :
    (exampleFit.objjac [5, 2]).length = exampleFit.ivals.length ∧
    (exampleFit.objjac [5, 2]).getD 2 [] =
      (exampleFit.zcoord (exampleFit.ivals.getD 2 [])).map (fun a => -a) ∧
    ((exampleFit.objjac [5, 2]).getD 2 []).length = exampleFit.npars ∧
    exampleFit.objjac [5, 2] = exampleFit.objjac [0, 0] :=
  C4_objjac_constant exampleFit [5, 2] [0, 0] 2 (by decide) (by decide)

/-- C9: a `dolsq` call leaves every field of the fitter state unchanged
(`ivals`, `dvals`, `dm` and the derived `npars`, `npts`, `ndf`), returns
exactly the fresh result determined by that state and the guess, and a
repeated call on the post-state returns the same result. -/
theorem C9_dolsq_frame (p : Plane_nd) (solver : List ℚ → SolverOutput) (guess : List ℚ) :
    (p.dolsqCall solver guess).1.ivals = p.ivals ∧
    (p.dolsqCall solver guess).1.dvals = p.dvals ∧
    (p.dolsqCall solver guess).1.dm = p.dm ∧
    (p.dolsqCall solver guess).1.npars = p.npars ∧
    (p.dolsqCall solver guess).1.npts = p.npts ∧
    (p.dolsqCall solver guess).1.ndf = p.ndf ∧
    (p.dolsqCall solver guess).2 = p.dolsq solver guess ∧
    ((p.dolsqCall solver guess).1.dolsqCall solver guess).2 = (p.dolsqCall solver guess).2 :=
  ⟨rfl, rfl, rfl, rfl, rfl, rfl, rfl, rfl⟩

/-- C10: calling `dolsq` with the empty guess takes the same path as
omitting the guess — the heuristic initial guess is constructed and the
results coincide — and no call can ever pass the empty vector to the
solver as a literal initial guess. -/
theorem C10_empty_guess_sentinel (p : Plane_nd) (solver : List ℚ → SolverOutput) :
    p.dolsq solver [] = p.dolsqNoGuess solver ∧
    p.xiniOf [] = p.heuristicGuess ∧
    ∀ guess, p.xiniOf guess ≠ [] := by
  refine ⟨rfl, by simp [Plane_nd.xiniOf], ?_⟩
  intro g
  unfold Plane_nd.xiniOf
  split
  · simp [Plane_nd.heuristicGuess]
  · assumption

/-- C2: whenever `ndf ≤ 0` or the solver reports a singular covariance
proxy (`pcov = none`), every entry of the returned error vector is the
undefined marker `none`, whatever covariance output the solver produced;
in particular `npts ≤ dm` forces this path unconditionally. -/
theorem C2_undefined_errors (p : Plane_nd) (solver : List ℚ → SolverOutput) (guess : List ℚ)
    (h : p.npts ≤ p.dm ∨ p.ndf ≤ 0 ∨ (solver (p.xiniOf guess)).pcov = none) :
    (p.dolsq solver guess).2 = List.replicate p.npars none := by
  have hcond : ¬(p.ndf > 0 ∧ (solver (p.xiniOf guess)).pcov ≠ none) := by
    rcases h with h | h | h
    · rintro ⟨h1, -⟩
      unfold Plane_nd.ndf Plane_nd.npars Plane_nd.npts at h1
      unfold Plane_nd.npts at h
      omega
    · rintro ⟨h1, -⟩
      omega
    · rintro ⟨-, h2⟩
      exact h2 h
  simp [Plane_nd.dolsq, Plane_nd.dolsqErrors, hcond]

/-- Witness for C2 on `underdeterminedFit` (N = 1 ≤ D = 2), with a solver
that does produce a covariance matrix: the errors are still all `none`. -/
theorem C2_undefined_errors_witness :
    (underdeterminedFit.dolsq exampleSolver [1, 2, 3]).2 =
      List.replicate underdeterminedFit.npars none :=
  C2_undefined_errors underdeterminedFit exampleSolver [1, 2, 3] (Or.inl (by decide))

/-- C8: a nonempty initial guess whose length differs from `npars` is
rejected by the solver-side shape validation before any solve: the checked
call returns an error and no fit result. -/
theorem C8_wrong_length_guess (p : Plane_nd) (solver : List ℚ → SolverOutput)
    (guess : List ℚ) (h1 : guess ≠ []) (h2 : guess.length ≠ p.npars) :
    p.dolsqChecked solver guess =
      Except.error "mismatch between the input and output shape of objjac" := by
  simp [Plane_nd.dolsqChecked, Plane_nd.leastsqShapeCheck, Plane_nd.xiniOf, h1, h2]

/-- Witness for C8: a length-3 guess on the D = 1 fitter (npars = 2). -/
theorem C8_wrong_length_guess_witness :
    exampleFit.dolsqChecked exampleSolver [1, 2, 3] =
      Except.error "mismatch between the input and output shape of objjac" :=
  C8_wrong_length_guess exampleFit exampleSolver [1, 2, 3] (by decide) (by decide)

/-- C7: on the concrete degenerate sample set `degenFit`, whose only
independent axis has zero span, the slope denominator `iv_max - iv_min` is
zero yet the division is performed anyway; under the float-division model
the resulting guess entry is non-finite (`none`), and `dolsq` passes the
heuristic guess to the solver as-is, with no guard or replacement. -/
theorem C7_division_by_zero_unguarded (solver : List ℚ → SolverOutput) :
    degenFit.slopeDenom 0 = 0 ∧
    (degenFit.colI 0).getD (argmaxIdx (degenFit.colI 0)) 0 =
      (degenFit.colI 0).getD (argminIdx (degenFit.colI 0)) 0 ∧
    degenFit.heuristicGuessF.getD 1 (some 0) = none ∧
    degenFit.xiniOf [] = degenFit.heuristicGuess ∧
    (degenFit.dolsq solver []).1 = (solver degenFit.heuristicGuess).popt := by
  refine ⟨?_, by rfl, ?_, by simp [Plane_nd.xiniOf], rfl⟩
  · simp [Plane_nd.slopeDenom, Plane_nd.colI, degenFit, argmaxIdx, argminIdx]
  · simp [Plane_nd.heuristicGuessF, Plane_nd.slopeEstimateF, Plane_nd.slopeDenom, Plane_nd.colI,
      degenFit, argmaxIdx, argminIdx, Plane_nd.fdiv]

/-- `argmaxIdx` returns the index of the first occurrence of the maximum:
`numpy.argmax` semantics. -/
theorem argmaxIdx_isFirstMax (l : List ℚ) (h : l ≠ []) :
    isFirstMaxIdx l (argmaxIdx l) := by
  induction l with
  | nil => exact absurd rfl h
  | cons a t ih =>
    cases t with
    | nil =>
      refine ⟨by simp [argmaxIdx], ?_, ?_⟩
      · intro k hk
        have hk0 : k = 0 := by simp at hk; omega
        subst hk0
        simp [argmaxIdx]
      · intro k hk
        simp [argmaxIdx] at hk
    | cons b t' =>
      obtain ⟨hj1, hj2, hj3⟩ := ih (by simp)
      by_cases hc : (b :: t').getD (argmaxIdx (b :: t')) 0 > a
      · have heq : argmaxIdx (a :: b :: t') = argmaxIdx (b :: t') + 1 := by
          simp only [argmaxIdx]
          rw [if_pos hc]
        rw [heq]
        refine ⟨by simp only [List.length_cons] at hj1 ⊢; omega, ?_, ?_⟩
        · intro k hk
          cases k with
          | zero =>
            simp only [List.getD_cons_zero, List.getD_cons_succ]
            exact le_of_lt hc
          | succ k' =>
            simp only [List.getD_cons_succ]
            exact hj2 k' (by simp only [List.length_cons] at hk ⊢; omega)
        · intro k hk
          cases k with
          | zero =>
            simp only [List.getD_cons_zero, List.getD_cons_succ]
            exact hc
          | succ k' =>
            simp only [List.getD_cons_succ]
            exact hj3 k' (by omega)
      · have heq : argmaxIdx (a :: b :: t') = 0 := by
          simp only [argmaxIdx]
          rw [if_neg hc]
        rw [heq]
        push_neg at hc
        refine ⟨by simp, ?_, ?_⟩
        · intro k hk
          cases k with
          | zero => simp
          | succ k' =>
            simp only [List.getD_cons_succ, List.getD_cons_zero]
            exact le_trans (hj2 k' (by simp only [List.length_cons] at hk ⊢; omega)) hc
        · intro k hk
          omega

/-- `argminIdx` returns the index of the first occurrence of the minimum:
`numpy.argmin` semantics. -/
theorem argminIdx_isFirstMin (l : List ℚ) (h : l ≠ []) :
    isFirstMinIdx l (argminIdx l) := by
  induction l with
  | nil => exact absurd rfl h
  | cons a t ih =>
    cases t with
    | nil =>
      refine ⟨by simp [argminIdx], ?_, ?_⟩
      · intro k hk
        have hk0 : k = 0 := by simp at hk; omega
        subst hk0
        simp [argminIdx]
      · intro k hk
        simp [argminIdx] at hk
    | cons b t' =>
      obtain ⟨hj1, hj2, hj3⟩ := ih (by simp)
      by_cases hc : (b :: t').getD (argminIdx (b :: t')) 0 < a
      · have heq : argminIdx (a :: b :: t') = argminIdx (b :: t') + 1 := by
          simp only [argminIdx]
          rw [if_pos hc]
        rw [heq]
        refine ⟨by simp only [List.length_cons] at hj1 ⊢; omega, ?_, ?_⟩
        · intro k hk
          cases k with
          | zero =>
            simp only [List.getD_cons_zero, List.getD_cons_succ]
            exact le_of_lt hc
          | succ k' =>
            simp only [List.getD_cons_succ]
            exact hj2 k' (by simp only [List.length_cons] at hk ⊢; omega)
        · intro k hk
          cases k with
          | zero =>
            simp only [List.getD_cons_zero, List.getD_cons_succ]
            exact hc
          | succ k' =>
            simp only [List.getD_cons_succ]
            exact hj3 k' (by omega)
      · have heq : argminIdx (a :: b :: t') = 0 := by
          simp only [argminIdx]
          rw [if_neg hc]
        rw [heq]
        push_neg at hc
        refine ⟨by simp, ?_, ?_⟩
        · intro k hk
          cases k with
          | zero => simp
          | succ k' =>
            simp only [List.getD_cons_succ, List.getD_cons_zero]
            exact le_trans hc (hj2 k' (by simp only [List.length_cons] at hk ⊢; omega))
        · intro k hk
          omega

/-- C6: the heuristic initial guess has entry 0 equal to the arithmetic
mean of the dependent values, and entry `i` (for `1 ≤ i ≤ D`) equal to the
dependent value at the first sample attaining the maximum of axis `i`
minus the dependent value at the first sample attaining its minimum,
divided by that axis's span, divided by D — ties broken by first
occurrence in sample order. -/
theorem C6_heuristic_guess (p : Plane_nd) (i : ℕ)
    (hiv : p.ivals ≠ []) (h1 : 1 ≤ i) (h2 : i ≤ p.dm) :
    p.heuristicGuess.getD 0 0 = p.dvals.sum / (p.dvals.length : ℚ) ∧
    isFirstMaxIdx (p.colI (i - 1)) (argmaxIdx (p.colI (i - 1))) ∧
    isFirstMinIdx (p.colI (i - 1)) (argminIdx (p.colI (i - 1))) ∧
    p.heuristicGuess.getD i 0 =
      (p.dvals.getD (argmaxIdx (p.colI (i - 1))) 0 -
        p.dvals.getD (argminIdx (p.colI (i - 1))) 0) /
      ((p.colI (i - 1)).getD (argmaxIdx (p.colI (i - 1))) 0 -
        (p.colI (i - 1)).getD (argminIdx (p.colI (i - 1))) 0) / (p.dm : ℚ) := by
  have hcol : p.colI (i - 1) ≠ [] := by simp [Plane_nd.colI, hiv]
  refine ⟨rfl, argmaxIdx_isFirstMax _ hcol, argminIdx_isFirstMin _ hcol, ?_⟩
  obtain ⟨i', rfl⟩ : ∃ i', i = i' + 1 := ⟨i - 1, by omega⟩
  simp only [Plane_nd.heuristicGuess, List.getD_cons_succ, Nat.add_sub_cancel]
  rw [getD_map_range _ _ _ _ (by omega)]
  rfl

/-- Witness for C6 at axis `i = 1` of `exampleFit`. -/
theorem C6_heuristic_guess_witness :
    exampleFit.heuristicGuess.getD 0 0 =
      exampleFit.dvals.sum / (exampleFit.dvals.length : ℚ) ∧
    isFirstMaxIdx (exampleFit.colI 0) (argmaxIdx (exampleFit.colI 0)) ∧
    isFirstMinIdx (exampleFit.colI 0) (argminIdx (exampleFit.colI 0)) ∧
    exampleFit.heuristicGuess.getD 1 0 =
      (exampleFit.dvals.getD (argmaxIdx (exampleFit.colI 0)) 0 -
        exampleFit.dvals.getD (argminIdx (exampleFit.colI 0)) 0) /
      ((exampleFit.colI 0).getD (argmaxIdx (exampleFit.colI 0)) 0 -
        (exampleFit.colI 0).getD (argminIdx (exampleFit.colI 0)) 0) /
      (exampleFit.dm : ℚ) :=
  C6_heuristic_guess exampleFit 1 (by decide) (by decide) (by decide)

/-- C1: when `ndf > 0` and the solver returns a covariance proxy, each
returned error entry `i` is the square root of entry `[i][i]` of the
covariance proxy scaled by the residual variance — the sum of squared
residuals recomputed at the optimized parameters, divided by `ndf`. -/
theorem C1_parameter_errors (p : Plane_nd) (solver : List ℚ → SolverOutput)
    (guess : List ℚ) (M : List (List ℚ)) (i : ℕ)
    (hndf : p.ndf > 0) (hcov : (solver (p.xiniOf guess)).pcov = some M)
    (hi : i < p.npars) :
    (p.dolsq solver guess).2.getD i none =
      some (Real.sqrt
        (((((M.map (fun row => row.map (fun a => a *
            (((p.objfun (p.dolsq solver guess).1).map (fun r => r ^ 2)).sum /
              (p.ndf : ℚ))))).getD i []).getD i 0 : ℚ) : ℝ))) := by
  have hpcov : (solver (p.xiniOf guess)).pcov ≠ none := by rw [hcov]; simp
  simp only [Plane_nd.dolsq, Plane_nd.dolsqErrors]
  rw [if_pos ⟨hndf, hpcov⟩]
  rw [getD_map_range _ _ _ _ hi]
  rw [hcov]
  rfl

/-- Witness for C1 at index 0 of `exampleFit` with the stub solver, whose
covariance proxy is the 2×2 identity. -/
theorem C1_parameter_errors_witness :
    (exampleFit.dolsq exampleSolver []).2.getD 0 none =
      some (Real.sqrt
        ((((((([[1, 0], [0, 1]] : List (List ℚ))).map (fun row => row.map (fun a => a *
            (((exampleFit.objfun (exampleFit.dolsq exampleSolver []).1).map (fun r => r ^ 2)).sum /
              (exampleFit.ndf : ℚ))))).getD 0 []).getD 0 0 : ℚ) : ℝ))) :=
  C1_parameter_errors exampleFit exampleSolver [] [[1, 0], [0, 1]] 0 (by decide) rfl (by decide)
